import Mathlib

/-!
Verification development for the Google Maps lead-scraper repository.

The JavaScript sources are shallowly embedded:
* string-level helpers model the JS string primitives used by the code
  (trim, toLowerCase, regex replaces restricted to the character classes
  that actually occur);
* the validator (validator part of the server sources) is translated
  function by function;
* the scraper (scraper.js, and the alternate variant in part_004) is
  embedded as a deterministic function of an environment that supplies the
  values the browser would return (page reads, end-of-list flags,
  per-candidate detail reads);
* the job orchestrator progress channel (runScrapeJob in server.js) is
  embedded as a fold of progress events over a job record.
-/

namespace GMaps

/-- Whitespace test modelling the character class matched by the JS regex
class backslash-s and removed by String.prototype.trim (ASCII range). -/
def isWS (c : Char) : Bool :=
  c.toNat == 32 || c.toNat == 9 || c.toNat == 10 ||
  c.toNat == 13 || c.toNat == 11 || c.toNat == 12

/-- Drop the maximal trailing run of characters satisfying p.  Used to model
trimming at the end of a string and the regex replace of trailing slashes
in normalizeUrl. -/
def dropTrailing (p : Char → Bool) : List Char → List Char
  | [] => []
  | c :: rest =>
    let r := dropTrailing p rest
    if r.isEmpty then (if p c then [] else [c]) else c :: r

/-- Character list form of JS String.prototype.trim. -/
def trimChars (l : List Char) : List Char :=
  dropTrailing isWS (l.dropWhile isWS)

/-- Model of JS String.prototype.trim. -/
def jsTrim (s : String) : String := ⟨trimChars s.data⟩

/-- Model of JS toLowerCase on one character (ASCII letters, as in the
data handled by the validator). -/
def lowerChar (c : Char) : Char :=
  if 65 ≤ c.toNat && c.toNat ≤ 90 then Char.ofNat (c.toNat + 32) else c

/-- Model of JS String.prototype.toLowerCase. -/
def jsToLower (s : String) : String := ⟨s.data.map lowerChar⟩

/-- Replace every maximal run of whitespace by a single space: the JS
replace of the regex backslash-s-plus with a single space. -/
def collapseWS : List Char → List Char
  | [] => []
  | [c] => if isWS c then [' '] else [c]
  | a :: b :: rest =>
    if isWS a && isWS b then collapseWS (b :: rest)
    else (if isWS a then ' ' else a) :: collapseWS (b :: rest)

/-- A collapsed string: every whitespace character is a plain space and no
two adjacent characters are both whitespace. -/
def GoodWS : List Char → Prop
  | [] => True
  | [c] => isWS c = true → c = ' '
  | a :: b :: rest =>
    (isWS a = true → a = ' ') ∧ ¬(isWS a = true ∧ isWS b = true) ∧
      GoodWS (b :: rest)

theorem dropWhile_idem (p : Char → Bool) (l : List Char) :
    List.dropWhile p (List.dropWhile p l) = List.dropWhile p l := by
  induction l with
  | nil => rfl
  | cons c rest ih =>
    by_cases h : p c
    · simp [List.dropWhile, h, ih]
    · simp [List.dropWhile, h]

theorem dropTrailing_cons (p : Char → Bool) (c : Char) (rest : List Char) :
    dropTrailing p (c :: rest) =
      if (dropTrailing p rest).isEmpty then (if p c then [] else [c])
      else c :: dropTrailing p rest := rfl

theorem dropTrailing_idem (p : Char → Bool) (l : List Char) :
    dropTrailing p (dropTrailing p l) = dropTrailing p l := by
  induction l with
  | nil => rfl
  | cons c rest ih =>
    cases hr : dropTrailing p rest with
    | nil =>
      by_cases h : p c
      · simp [dropTrailing, hr, h]
      · simp [dropTrailing, hr, h]
    | cons x xs =>
      rw [hr] at ih
      rw [dropTrailing_cons, hr, if_neg (by simp)]
      rw [dropTrailing_cons, ih, if_neg (by simp)]

theorem dropTrailing_sublist (p : Char → Bool) (l : List Char) :
    (dropTrailing p l).Sublist l := by
  induction l with
  | nil => simp [dropTrailing]
  | cons c rest ih =>
    cases hr : dropTrailing p rest with
    | nil =>
      by_cases h : p c
      · simp [dropTrailing, hr, h]
      · simp [dropTrailing, hr, h]
    | cons x xs =>
      rw [hr] at ih
      simpa [dropTrailing, hr] using List.Sublist.cons₂ c ih

theorem dropTrailing_head (p : Char → Bool) (l : List Char) (c : Char)
    (r : List Char) (h : dropTrailing p l = c :: r) : ∃ t, l = c :: t := by
  cases l with
  | nil => simp [dropTrailing] at h
  | cons a rest =>
    refine ⟨rest, ?_⟩
    cases hr : dropTrailing p rest with
    | nil =>
      by_cases hp : p a
      · simp [dropTrailing, hr, hp] at h
      · simp [dropTrailing, hr, hp] at h
        rw [h.1]
    | cons x xs =>
      simp only [dropTrailing, hr, List.isEmpty_cons,
        if_neg Bool.false_ne_true, List.cons.injEq] at h
      rw [h.1]

theorem dropWhile_fixed_of_dropTrailing (p q : Char → Bool) (l : List Char)
    (hfix : List.dropWhile p l = l) :
    List.dropWhile p (dropTrailing q l) = dropTrailing q l := by
  cases hr : dropTrailing q l with
  | nil => rfl
  | cons c r =>
    obtain ⟨t, ht⟩ := dropTrailing_head q l c r hr
    subst ht
    by_cases hp : p c
    · exfalso
      rw [List.dropWhile_cons_of_pos hp] at hfix
      have h1 := (List.dropWhile_sublist (l := t) p).length_le
      have h2 := congrArg List.length hfix
      simp at h2
      omega
    · exact List.dropWhile_cons_of_neg hp

theorem trimChars_idem (l : List Char) :
    trimChars (trimChars l) = trimChars l := by
  unfold trimChars
  rw [dropWhile_fixed_of_dropTrailing isWS isWS (List.dropWhile isWS l)
      (dropWhile_idem isWS l)]
  exact dropTrailing_idem isWS _

theorem trimChars_sublist (l : List Char) : (trimChars l).Sublist l :=
  (dropTrailing_sublist isWS _).trans (List.dropWhile_sublist isWS)

theorem goodWS_tail (a : Char) (l : List Char)
    (h : GoodWS (a :: l)) : GoodWS l := by
  cases l with
  | nil => exact trivial
  | cons b rest => exact h.2.2

theorem goodWS_head (a : Char) (l : List Char) (h : GoodWS (a :: l)) :
    isWS a = true → a = ' ' := by
  cases l with
  | nil => exact h
  | cons b rest => exact h.1

theorem collapseWS_head_ws (l : List Char) (y : Char) (ys : List Char)
    (h : collapseWS l = y :: ys) (hy : isWS y = true) :
    ∃ c t, l = c :: t ∧ isWS c = true := by
  induction l with
  | nil => simp [collapseWS] at h
  | cons a rest ih =>
    cases rest with
    | nil =>
      by_cases ha : isWS a
      · exact ⟨a, [], rfl, ha⟩
      · simp [collapseWS, ha] at h
        rw [← h.1] at hy
        exact absurd hy ha
    | cons b rest2 =>
      by_cases hab : (isWS a && isWS b) = true
      · exact ⟨a, b :: rest2, rfl, (Bool.and_eq_true .. ▸ hab).1⟩
      · rw [collapseWS, if_neg hab] at h
        by_cases ha : isWS a
        · exact ⟨a, b :: rest2, rfl, ha⟩
        · rw [if_neg ha] at h
          injection h with h1 h2
          rw [← h1] at hy
          exact absurd hy ha

theorem goodWS_collapseWS (l : List Char) : GoodWS (collapseWS l) := by
  induction l with
  | nil => exact trivial
  | cons a rest ih =>
    cases rest with
    | nil =>
      by_cases ha : isWS a
      · simp only [collapseWS, if_pos ha]
        exact fun _ => rfl
      · simp only [collapseWS, if_neg ha]
        exact fun hw => absurd hw ha
    | cons b rest2 =>
      by_cases hab : (isWS a && isWS b) = true
      · rw [collapseWS, if_pos hab]; exact ih
      · rw [collapseWS, if_neg hab]
        cases hc : collapseWS (b :: rest2) with
        | nil =>
          by_cases ha : isWS a
          · simp only [if_pos ha]
            exact fun _ => rfl
          · simp only [if_neg ha]
            exact fun hw => absurd hw ha
        | cons y ys =>
          rw [hc] at ih
          refine ⟨?_, ?_, ih⟩
          · by_cases ha : isWS a
            · simp [ha]
            · simp [ha]
          · rintro ⟨hx, hy⟩
            obtain ⟨c, t, hct, hcw⟩ := collapseWS_head_ws _ y ys hc hy
            injection hct with h1 h2
            have hb : isWS b = true := by rw [h1]; exact hcw
            by_cases ha : isWS a
            · exact hab (by rw [ha, hb]; rfl)
            · rw [if_neg ha] at hx
              exact ha hx

theorem collapseWS_eq_self (l : List Char) (h : GoodWS l) :
    collapseWS l = l := by
  induction l with
  | nil => rfl
  | cons a rest ih =>
    cases rest with
    | nil =>
      by_cases ha : isWS a
      · rw [collapseWS, if_pos ha, h ha]
      · rw [collapseWS, if_neg ha]
    | cons b rest2 =>
      have hab : (isWS a && isWS b) ≠ true := by
        intro hx
        exact h.2.1 ⟨(Bool.and_eq_true .. ▸ hx).1, (Bool.and_eq_true .. ▸ hx).2⟩
      rw [collapseWS, if_neg hab, ih h.2.2]
      by_cases ha : isWS a
      · rw [if_pos ha, h.1 ha]
      · rw [if_neg ha]

theorem goodWS_dropWhile (p : Char → Bool) (l : List Char)
    (h : GoodWS l) : GoodWS (List.dropWhile p l) := by
  induction l with
  | nil => exact h
  | cons a rest ih =>
    by_cases hp : p a
    · rw [List.dropWhile_cons_of_pos hp]
      exact ih (goodWS_tail a rest h)
    · rw [List.dropWhile_cons_of_neg hp]
      exact h

theorem goodWS_dropTrailing (p : Char → Bool) (l : List Char)
    (h : GoodWS l) : GoodWS (dropTrailing p l) := by
  induction l with
  | nil => exact h
  | cons a rest ih =>
    cases hr : dropTrailing p rest with
    | nil =>
      by_cases hp : p a
      · simp [dropTrailing, hr, hp]
        exact trivial
      · simp only [dropTrailing, hr, List.isEmpty_nil, if_pos rfl, if_neg hp]
        exact goodWS_head a rest h
    | cons x xs =>
      rw [dropTrailing_cons, hr, if_neg (by simp)]
      obtain ⟨t, ht⟩ := dropTrailing_head p rest x xs hr
      cases rest with
      | nil => simp [dropTrailing] at hr
      | cons b rest2 =>
        injection ht with h1 h2
        have hgt : GoodWS (x :: xs) := by
          rw [← hr]
          exact ih (goodWS_tail a _ h)
        refine ⟨h.1, ?_, hgt⟩
        rw [← h1]
        exact h.2.1

theorem mem_collapseWS (c : Char) (l : List Char) (h : c ∈ collapseWS l) :
    c = ' ' ∨ c ∈ l := by
  induction l with
  | nil => simp [collapseWS] at h
  | cons a rest ih =>
    cases rest with
    | nil =>
      by_cases ha : isWS a
      · simp [collapseWS, ha] at h
        exact Or.inl h
      · simp [collapseWS, ha] at h
        exact Or.inr (by simp [h])
    | cons b rest2 =>
      by_cases hab : (isWS a && isWS b) = true
      · rw [collapseWS, if_pos hab] at h
        rcases ih h with h1 | h1
        · exact Or.inl h1
        · exact Or.inr (List.mem_cons_of_mem a h1)
      · rw [collapseWS, if_neg hab] at h
        rcases List.mem_cons.mp h with h1 | h1
        · by_cases ha : isWS a
          · rw [if_pos ha] at h1
            exact Or.inl h1
          · rw [if_neg ha] at h1
            exact Or.inr (by simp [h1])
        · rcases ih h1 with h2 | h2
          · exact Or.inl h2
          · exact Or.inr (List.mem_cons_of_mem a h2)

theorem toNat_ofNat_small (n : Nat) (h : n < 55296) :
    (Char.ofNat n).toNat = n := by
  unfold Char.ofNat
  rw [dif_pos (Or.inl h)]
  rfl

theorem lowerChar_idem (c : Char) : lowerChar (lowerChar c) = lowerChar c := by
  by_cases h : (65 ≤ c.toNat && c.toNat ≤ 90) = true
  · have hc : 65 ≤ c.toNat ∧ c.toNat ≤ 90 := by simpa using h
    have ht : (Char.ofNat (c.toNat + 32)).toNat = c.toNat + 32 :=
      toNat_ofNat_small _ (by omega)
    have hcond : ¬((65 ≤ (Char.ofNat (c.toNat + 32)).toNat &&
        (Char.ofNat (c.toNat + 32)).toNat ≤ 90) = true) := by
      rw [ht]
      simp
      omega
    unfold lowerChar
    rw [if_pos h, if_neg hcond]
  · unfold lowerChar
    rw [if_neg h, if_neg h]

theorem isWS_lowerChar (c : Char) : isWS (lowerChar c) = isWS c := by
  by_cases h : (65 ≤ c.toNat && c.toNat ≤ 90) = true
  · have hc : 65 ≤ c.toNat ∧ c.toNat ≤ 90 := by simpa using h
    have ht : (Char.ofNat (c.toNat + 32)).toNat = c.toNat + 32 :=
      toNat_ofNat_small _ (by omega)
    have hL : isWS (Char.ofNat (c.toNat + 32)) = false := by
      unfold isWS
      rw [ht]
      simp
      omega
    have hR : isWS c = false := by
      unfold isWS
      simp
      omega
    unfold lowerChar
    rw [if_pos h, hL, hR]
  · unfold lowerChar
    rw [if_neg h]

theorem dropTrailing_map_lowerChar (p : Char → Bool)
    (hp : ∀ c, p (lowerChar c) = p c) (l : List Char) :
    dropTrailing p (l.map lowerChar) = (dropTrailing p l).map lowerChar := by
  induction l with
  | nil => rfl
  | cons a rest ih =>
    rw [List.map_cons, dropTrailing_cons, dropTrailing_cons, ih]
    cases hr : dropTrailing p rest with
    | nil =>
      by_cases hpa : p a
      · simp [hp a, hpa]
      · simp [hp a, hpa]
    | cons x xs => simp

theorem trimChars_map_lowerChar (l : List Char) :
    trimChars (l.map lowerChar) = (trimChars l).map lowerChar := by
  unfold trimChars
  rw [List.dropWhile_map]
  have hW : (isWS ∘ lowerChar) = isWS := funext isWS_lowerChar
  rw [hW, dropTrailing_map_lowerChar isWS isWS_lowerChar]

/-- Model of JS String.prototype.startsWith. -/
def jsStartsWith (s t : String) : Bool := t.data.isPrefixOf s.data

/-- Character class kept by the regex filter in normalizePhone: digits,
plus, minus, parentheses and the plain space. -/
def phoneChar (c : Char) : Bool :=
  c.isDigit || c == '+' || c == '-' || c == '(' || c == ')' || c == ' '

/-- Model of normalizePhone from the validator: trim, delete every
character outside the phone class, collapse whitespace runs to single
spaces, trim again.  Empty input returns the empty string via the falsy
guard. -/
def normalizePhone (phone : String) : String :=
  if phone = "" then ""
  else ⟨trimChars (collapseWS ((trimChars phone.data).filter phoneChar))⟩

/-- Model of normalizeUrl from the validator: trim, prepend the https
scheme when no scheme is present, then strip the maximal run of trailing
slashes. -/
def normalizeUrl (url : String) : String :=
  if url = "" then ""
  else
    let cleaned := jsTrim url
    let cleaned :=
      if !(cleaned == "") && !(jsStartsWith cleaned "http://") &&
          !(jsStartsWith cleaned "https://")
      then "https://" ++ cleaned else cleaned
    ⟨dropTrailing (fun c => c == '/') cleaned.data⟩

/-- Model of normalizeEmail from the validator: trim then lowercase. -/
def normalizeEmail (email : String) : String :=
  if email = "" then ""
  else jsToLower (jsTrim email)

theorem normalizePhone_data (phone : String) (h : ¬(phone = "")) :
    (normalizePhone phone).data =
      trimChars (collapseWS ((trimChars phone.data).filter phoneChar)) := by
  unfold normalizePhone
  rw [if_neg h]

theorem normalizePhone_empty : normalizePhone "" = "" := by
  unfold normalizePhone
  rw [if_pos rfl]

theorem normalizePhone_idem (s : String) :
    normalizePhone (normalizePhone s) = normalizePhone s := by
  by_cases hs : s = ""
  · rw [hs, normalizePhone_empty, normalizePhone_empty]
  · by_cases hre : normalizePhone s = ""
    · rw [hre, normalizePhone_empty]
    · have hdata := normalizePhone_data s hs
      have htrim : trimChars (normalizePhone s).data = (normalizePhone s).data := by
        rw [hdata]
        exact trimChars_idem _
      have hfil : ((normalizePhone s).data).filter phoneChar =
          (normalizePhone s).data := by
        apply List.filter_eq_self.mpr
        intro c hc
        rw [hdata] at hc
        have h1 := List.Sublist.mem hc (trimChars_sublist _)
        rcases mem_collapseWS c _ h1 with h2 | h2
        · rw [h2]; rfl
        · exact (List.mem_filter.mp h2).2
      have hcol : collapseWS (normalizePhone s).data = (normalizePhone s).data := by
        apply collapseWS_eq_self
        rw [hdata]
        unfold trimChars
        exact goodWS_dropTrailing _ _ (goodWS_dropWhile _ _ (goodWS_collapseWS _))
      apply String.ext
      rw [normalizePhone_data _ hre, htrim, hfil, hcol, htrim]

theorem normalizeEmail_data (s : String) (h : ¬(s = "")) :
    (normalizeEmail s).data = (trimChars s.data).map lowerChar := by
  unfold normalizeEmail jsToLower jsTrim
  rw [if_neg h]

theorem normalizeEmail_empty : normalizeEmail "" = "" := by
  unfold normalizeEmail
  rw [if_pos rfl]

theorem normalizeEmail_idem (s : String) :
    normalizeEmail (normalizeEmail s) = normalizeEmail s := by
  by_cases hs : s = ""
  · rw [hs, normalizeEmail_empty, normalizeEmail_empty]
  · by_cases hre : normalizeEmail s = ""
    · rw [hre, normalizeEmail_empty]
    · apply String.ext
      rw [normalizeEmail_data _ hre, normalizeEmail_data _ hs,
        trimChars_map_lowerChar, trimChars_idem, List.map_map]
      have : (lowerChar ∘ lowerChar) = lowerChar := funext lowerChar_idem
      rw [this]

theorem startsWith_ne_empty (r t : String) (a : Char) (as : List Char)
    (hp : t.data = a :: as) (h : jsStartsWith r t = true) : ¬(r = "") := by
  intro he
  subst he
  unfold jsStartsWith at h
  rw [hp] at h
  simp [List.isPrefixOf] at h

theorem normalizeUrl_empty : normalizeUrl "" = "" := by
  unfold normalizeUrl
  rw [if_pos rfl]

theorem normalizeUrl_eq (url : String) (h : ¬(url = "")) :
    normalizeUrl url = ⟨dropTrailing (fun c => c == '/')
      (if (!(jsTrim url == "") && !(jsStartsWith (jsTrim url) "http://") &&
           !(jsStartsWith (jsTrim url) "https://")) = true
       then "https://" ++ jsTrim url else jsTrim url).data⟩ := by
  unfold normalizeUrl
  rw [if_neg h]

theorem normalizeUrl_shape (url : String) (h : ¬(url = "")) :
    ∃ X, (normalizeUrl url).data = dropTrailing (fun c => c == '/') X := by
  rw [normalizeUrl_eq url h]
  exact ⟨_, rfl⟩

theorem normalizeUrl_idem_of_kept_scheme (s : String)
    (h : normalizeUrl s = "" ∨ (jsTrim (normalizeUrl s) = normalizeUrl s ∧
      (jsStartsWith (normalizeUrl s) "http://" ||
       jsStartsWith (normalizeUrl s) "https://") = true)) :
    normalizeUrl (normalizeUrl s) = normalizeUrl s := by
  rcases h with h | ⟨htrim, hstart⟩
  · rw [h, normalizeUrl_empty]
  · by_cases hs : s = ""
    · rw [hs, normalizeUrl_empty, normalizeUrl_empty]
    · obtain ⟨X, hX⟩ := normalizeUrl_shape s hs
      have hne : ¬(normalizeUrl s = "") := by
        rcases Bool.or_eq_true .. ▸ hstart with h1 | h1
        · exact startsWith_ne_empty _ _ 'h' _ rfl h1
        · exact startsWith_ne_empty _ _ 'h' _ rfl h1
      have hcond : (!(normalizeUrl s == "") &&
          !(jsStartsWith (normalizeUrl s) "http://") &&
          !(jsStartsWith (normalizeUrl s) "https://")) = false := by
        rcases Bool.or_eq_true .. ▸ hstart with h1 | h1
        · rw [h1]
          simp
        · rw [h1]
          simp
      apply String.ext
      rw [normalizeUrl_eq _ hne]
      simp only [htrim, hcond, Bool.false_eq_true, if_false]
      show dropTrailing (fun c => c == '/') (normalizeUrl s).data =
        (normalizeUrl s).data
      rw [hX]
      exact dropTrailing_idem _ X

/-- Raw business record produced by the scraper list view.  The email key
is absent from the JS object; the undefined value read by the validator
is modelled as the empty string. -/
structure Business where
  category : String := ""
  name : String := ""
  url : String := ""
  address : String := ""
  phone : String := ""
  website : String := ""
  rating : String := ""
  reviews : String := ""
  email : String := ""
deriving DecidableEq, Repr, Inhabited

/-- Validated record built by step 2 of validateAndClean.  The url key is
not copied by the cleaning step; iceBreaker is attached after the other
fields are cleaned. -/
structure CleanBusiness where
  category : String := ""
  name : String := ""
  address : String := ""
  phone : String := ""
  email : String := ""
  website : String := ""
  rating : String := ""
  reviews : String := ""
  iceBreaker : String := ""
deriving DecidableEq, Repr, Inhabited

/-- Value of a digit run. -/
def digitsVal (l : List Char) : Nat :=
  l.foldl (fun acc c => acc * 10 + (c.toNat - 48)) 0

/-- Optional sign shared by the numeric parsers. -/
def readSign : List Char → (Int × List Char)
  | '-' :: rest => (-1, rest)
  | '+' :: rest => (1, rest)
  | l => (1, l)

/-- Model of JS parseInt with radix 10: skip whitespace, optional sign,
then a maximal digit run; none models NaN. -/
def jsParseInt (s : String) : Option Int :=
  let l := s.data.dropWhile isWS
  let sl := readSign l
  let ds := sl.2.takeWhile Char.isDigit
  if ds.isEmpty then none else some (sl.1 * (digitsVal ds : Int))

/-- Exact decimal value produced by the float parser: num over den with
den a positive power of ten.  Plays the role of the JS double for the
rating values the validator parses, with exact order and zero tests. -/
structure Frac where
  num : Int
  den : Nat
deriving DecidableEq, Repr

/-- Model of JS parseFloat on decimal notation: skip whitespace, optional
sign, integer digits, optional dot and fraction digits; none models NaN.
Exponent notation does not occur in the scraped rating strings and is not
modelled. -/
def jsParseFloat (s : String) : Option Frac :=
  let l := s.data.dropWhile isWS
  let sl := readSign l
  let is := sl.2.takeWhile Char.isDigit
  let l3 := sl.2.drop is.length
  let fs := match l3 with
    | '.' :: rest => rest.takeWhile Char.isDigit
    | _ => []
  if is.isEmpty && fs.isEmpty then none
  else some
    ⟨sl.1 * ((digitsVal is * 10 ^ fs.length + digitsVal fs : Nat) : Int),
      10 ^ fs.length⟩

/-- JS truthiness of a parsed float: NaN and zero are falsy. -/
def truthyFrac (r : Option Frac) : Bool :=
  match r with
  | none => false
  | some q => !(q.num == 0)

/-- JS truthiness of a parsed integer: NaN and zero are falsy. -/
def truthyInt (n : Option Int) : Bool :=
  match n with
  | none => false
  | some v => !(v == 0)

/-- JS comparison of a parsed float against the bound bn over bd; false
on NaN. -/
def fracGE (r : Option Frac) (bn : Int) (bd : Nat) : Bool :=
  match r with
  | some q => decide (bn * (q.den : Int) ≤ q.num * (bd : Int))
  | none => false

/-- JS strict less-than of a parsed float against the bound bn over bd;
false on NaN. -/
def fracLT (r : Option Frac) (bn : Int) (bd : Nat) : Bool :=
  match r with
  | some q => decide (q.num * (bd : Int) < bn * (q.den : Int))
  | none => false

/-- JS comparison of a parsed integer above a bound; false on NaN. -/
def intGT (n : Option Int) (b : Int) : Bool :=
  match n with
  | some v => decide (b < v)
  | none => false

/-- JS comparison of a parsed integer below a bound; false on NaN. -/
def intLT (n : Option Int) (b : Int) : Bool :=
  match n with
  | some v => decide (v < b)
  | none => false

/-- Fractional digits of r / den, up to the given fuel, stopping when the
remainder vanishes. -/
def fracDigits : Nat → Nat → Nat → List Char
  | 0, _, _ => []
  | fuel+1, r, den =>
    if r = 0 then []
    else Char.ofNat (48 + r * 10 / den) :: fracDigits fuel (r * 10 % den) den

/-- Model of JS template interpolation of a number value, for the decimal
values parseFloat produces from the scraped ratings. -/
def fracToString (q : Frac) : String :=
  let sign := if q.num < 0 then "-" else ""
  let n := q.num.natAbs
  let ip := n / q.den
  let fr := fracDigits 20 (n % q.den) q.den
  if fr.isEmpty then sign ++ toString ip
  else sign ++ toString ip ++ "." ++ ⟨fr⟩

/-- Model of JS template interpolation of an integer value. -/
def intToString (v : Int) : String :=
  (if v < 0 then "-" else "") ++ toString v.natAbs

/-- Opening sentence of the ice breaker. -/
def iceIntro (name cat : String) : String :=
  "Hey " ++ name ++
  ", I just went through your Google Business Profile while researching " ++
  cat ++ " in your area. "

/-- Praise-reputation middle branch. -/
def icePraise (rating reviews : String) : String :=
  "You have a fantastic reputation with a " ++ rating ++
  "-star rating and " ++ reviews ++
  " reviews! That\x27s impressive and shows you provide great service. "

/-- Improvement-suggestion middle branch. -/
def iceImprove (rating : String) : String :=
  "I noticed your current rating is " ++ rating ++
  " stars. Often, this can be improved just by better managing your profile and responding to customers, which directly boosts your ranking. "

/-- Review-growth middle branch. -/
def iceGrow (reviews : String) : String :=
  "I noticed you only have " ++ reviews ++
  " reviews so far. Getting a few more positive reviews could really help you jump ahead of the local competition. "

/-- Neutral middle branch. -/
def iceNeutral : String :=
  "Your profile looks solid, and you\x27ve clearly put work into your local presence. "

/-- Website clause when a website is linked. -/
def iceSiteYes : String :=
  "You\x27ve got a good foundation with your current website, but I noticed some specific opportunities to optimize it further so you can outrank competitors and capture more of that local traffic. "

/-- Website clause when no website is linked. -/
def iceSiteNo : String :=
  "However, I noticed you don\x27t have a website linked to your profile yet. Since Google uses website quality and relevance as a top ranking factor, adding a fast, mobile-optimized site would be a game-changer for your visibility. "

/-- Fixed closing call to action, referencing the record category. -/
def iceClosing (cat : String) : String :=
  "I specialize in helping " ++ cat ++
  " like yours dominate local search by building high-performance websites and fully optimizing Google Business Profiles. Would you be open to a quick chat (or even just an email) about how we can get you to the top of the map pack?"

/-- Model of generateIceBreaker from the validator, transcribed in the
order the JS builds the message. -/
def generateIceBreaker (biz : CleanBusiness) : String :=
  let name := if biz.name = "" then "there" else biz.name
  let hasWebsite := !(biz.website == "")
  let rating := jsParseFloat biz.rating
  let reviews := jsParseInt biz.reviews
  let message := iceIntro name
    (if biz.category = "" then "businesses" else biz.category)
  let message := message ++
    (if truthyFrac rating && fracGE rating 9 2 && intGT reviews 20 then
      icePraise (fracToString (rating.getD ⟨0, 1⟩)) (intToString (reviews.getD 0))
    else if truthyFrac rating && fracLT rating 4 1 then
      iceImprove (fracToString (rating.getD ⟨0, 1⟩))
    else if truthyInt reviews && intLT reviews 10 then
      iceGrow (intToString (reviews.getD 0))
    else iceNeutral)
  let message := message ++ (if hasWebsite then iceSiteYes else iceSiteNo)
  message ++ iceClosing
    (if biz.category = "" then "businesses" else biz.category)

/-- Ice breaker as the claim words the rule table, without the truthiness
guards the code applies: rating at least 4.5 with more than 20 reviews,
otherwise rating below 4.0, otherwise fewer than 10 reviews, otherwise
neutral; then the website clause; then the closing. -/
def iceBreakerClaimed (biz : CleanBusiness) : String :=
  let rating := jsParseFloat biz.rating
  let reviews := jsParseInt biz.reviews
  let middle :=
    if fracGE rating 9 2 && intGT reviews 20 then
      icePraise (fracToString (rating.getD ⟨0, 1⟩)) (intToString (reviews.getD 0))
    else if fracLT rating 4 1 then
      iceImprove (fracToString (rating.getD ⟨0, 1⟩))
    else if intLT reviews 10 then
      iceGrow (intToString (reviews.getD 0))
    else iceNeutral
  iceIntro (if biz.name = "" then "there" else biz.name)
    (if biz.category = "" then "businesses" else biz.category) ++
  middle ++
  (if !(biz.website == "") then iceSiteYes else iceSiteNo) ++
  iceClosing (if biz.category = "" then "businesses" else biz.category)

/-- Ice breaker as the amended claim words it: the same rule table but
with the truthiness guards the code applies, so a rating that parses to
zero or fails to parse skips the two rating branches, and a review count
of zero or an unparseable one skips the review-growth branch. -/
def iceBreakerAmended (biz : CleanBusiness) : String :=
  let rating := jsParseFloat biz.rating
  let reviews := jsParseInt biz.reviews
  let middle :=
    if truthyFrac rating && fracGE rating 9 2 && intGT reviews 20 then
      icePraise (fracToString (rating.getD ⟨0, 1⟩)) (intToString (reviews.getD 0))
    else if truthyFrac rating && fracLT rating 4 1 then
      iceImprove (fracToString (rating.getD ⟨0, 1⟩))
    else if truthyInt reviews && intLT reviews 10 then
      iceGrow (intToString (reviews.getD 0))
    else iceNeutral
  iceIntro (if biz.name = "" then "there" else biz.name)
    (if biz.category = "" then "businesses" else biz.category) ++
  middle ++
  (if !(biz.website == "") then iceSiteYes else iceSiteNo) ++
  iceClosing (if biz.category = "" then "businesses" else biz.category)

/-- Deduplication key of removeDuplicates: the code lowercases then trims
the name and the address and joins them with a bar. -/
def dedupKey (biz : CleanBusiness) : String :=
  jsTrim (jsToLower biz.name) ++ "|" ++ jsTrim (jsToLower biz.address)

/-- Seen-set pass of removeDuplicates. -/
def removeDuplicatesAux (seen : List String) :
    List CleanBusiness → List CleanBusiness
  | [] => []
  | biz :: rest =>
    if dedupKey biz ∈ seen then removeDuplicatesAux seen rest
    else biz :: removeDuplicatesAux (dedupKey biz :: seen) rest

/-- Model of removeDuplicates from the validator: one pass with a seen
set, keeping the first record for each key. -/
def removeDuplicates (businesses : List CleanBusiness) : List CleanBusiness :=
  removeDuplicatesAux [] businesses

/-- Completeness test of removeIncomplete: name and address truthy and
nonempty after trimming. -/
def isComplete (biz : Business) : Bool :=
  !(biz.name == "") && decide (0 < (jsTrim biz.name).length) &&
  !(biz.address == "") && decide (0 < (jsTrim biz.address).length)

/-- Model of removeIncomplete from the validator. -/
def removeIncomplete (businesses : List Business) : List Business :=
  businesses.filter isComplete

/-- Step 2 of validateAndClean: trim the text fields, normalize phone,
email and website, then attach the ice breaker computed from the cleaned
fields.  The url key of the raw record is not copied. -/
def cleanBusiness (biz : Business) : CleanBusiness :=
  let cleaned : CleanBusiness :=
    { category := jsTrim biz.category
      name := jsTrim biz.name
      address := jsTrim biz.address
      phone := normalizePhone biz.phone
      email := normalizeEmail biz.email
      website := normalizeUrl biz.website
      rating := biz.rating
      reviews := biz.reviews
      iceBreaker := "" }
  { cleaned with iceBreaker := generateIceBreaker cleaned }

/-- Model of validateAndClean: completeness filter, field cleaning with
ice-breaker synthesis, then deduplication, in that order. -/
def validateAndClean (businesses : List Business) : List CleanBusiness :=
  removeDuplicates ((removeIncomplete businesses).map cleanBusiness)

theorem removeDuplicatesAux_cons (seen : List String) (b : CleanBusiness)
    (rest : List CleanBusiness) :
    removeDuplicatesAux seen (b :: rest) =
      if dedupKey b ∈ seen then removeDuplicatesAux seen rest
      else b :: removeDuplicatesAux (dedupKey b :: seen) rest := rfl

theorem removeDuplicatesAux_sublist (seen : List String)
    (xs : List CleanBusiness) : (removeDuplicatesAux seen xs).Sublist xs := by
  induction xs generalizing seen with
  | nil => simp [removeDuplicatesAux]
  | cons b rest ih =>
    by_cases h : dedupKey b ∈ seen
    · rw [removeDuplicatesAux_cons, if_pos h]
      exact (ih seen).cons b
    · rw [removeDuplicatesAux_cons, if_neg h]
      exact (ih _).cons₂ b

theorem removeDuplicatesAux_keys (seen : List String)
    (xs : List CleanBusiness) :
    ((removeDuplicatesAux seen xs).map dedupKey).Nodup ∧
      ∀ k ∈ (removeDuplicatesAux seen xs).map dedupKey, k ∉ seen := by
  induction xs generalizing seen with
  | nil => exact ⟨List.nodup_nil, by simp [removeDuplicatesAux]⟩
  | cons b rest ih =>
    by_cases h : dedupKey b ∈ seen
    · rw [removeDuplicatesAux_cons, if_pos h]
      exact ih seen
    · rw [removeDuplicatesAux_cons, if_neg h]
      obtain ⟨ihn, ihm⟩ := ih (dedupKey b :: seen)
      constructor
      · rw [List.map_cons]
        refine List.nodup_cons.mpr ⟨?_, ihn⟩
        intro hmem
        exact (ihm _ hmem) (List.mem_cons_self _ _)
      · rw [List.map_cons]
        intro k hk
        rcases List.mem_cons.mp hk with h1 | h1
        · subst h1
          exact h
        · exact fun hks => (ihm k h1) (List.mem_cons_of_mem _ hks)

theorem removeDuplicatesAux_congr (s1 s2 : List String)
    (xs : List CleanBusiness) (h : ∀ k, k ∈ s1 ↔ k ∈ s2) :
    removeDuplicatesAux s1 xs = removeDuplicatesAux s2 xs := by
  induction xs generalizing s1 s2 with
  | nil => rfl
  | cons b rest ih =>
    rw [removeDuplicatesAux_cons, removeDuplicatesAux_cons]
    by_cases hb : dedupKey b ∈ s1
    · rw [if_pos hb, if_pos ((h _).mp hb)]
      exact ih s1 s2 h
    · rw [if_neg hb, if_neg (fun hx => hb ((h _).mpr hx))]
      rw [ih (dedupKey b :: s1) (dedupKey b :: s2)
        (fun k => by simp [h k])]

theorem removeDuplicatesAux_eq_self (seen : List String)
    (xs : List CleanBusiness) (h1 : (xs.map dedupKey).Nodup)
    (h2 : ∀ k ∈ xs.map dedupKey, k ∉ seen) :
    removeDuplicatesAux seen xs = xs := by
  induction xs generalizing seen with
  | nil => rfl
  | cons b rest ih =>
    rw [List.map_cons, List.nodup_cons] at h1
    rw [removeDuplicatesAux_cons, if_neg (h2 (dedupKey b) (by simp))]
    congr 1
    apply ih _ h1.2
    intro k hk hks
    rcases List.mem_cons.mp hks with h3 | h3
    · subst h3
      exact h1.1 hk
    · exact h2 k (by simp [hk]) h3

theorem removeDuplicates_idem (xs : List CleanBusiness) :
    removeDuplicates (removeDuplicates xs) = removeDuplicates xs := by
  unfold removeDuplicates
  apply removeDuplicatesAux_eq_self
  · exact (removeDuplicatesAux_keys [] xs).1
  · intro k _ hk
    exact absurd hk (List.not_mem_nil k)

theorem removeDuplicatesAux_filter (k : String) (seen : List String)
    (xs : List CleanBusiness) :
    removeDuplicatesAux (k :: seen) xs =
      removeDuplicatesAux seen (xs.filter (fun x => !(dedupKey x == k))) := by
  induction xs generalizing seen with
  | nil => rfl
  | cons b rest ih =>
    by_cases hbk : dedupKey b = k
    · rw [removeDuplicatesAux_cons,
        if_pos (by rw [hbk]; exact List.mem_cons_self ..)]
      rw [List.filter_cons_of_neg (by simp [hbk])]
      exact ih seen
    · rw [List.filter_cons_of_pos (by simp [hbk])]
      rw [removeDuplicatesAux_cons, removeDuplicatesAux_cons]
      by_cases hbs : dedupKey b ∈ seen
      · rw [if_pos (List.mem_cons_of_mem _ hbs), if_pos hbs]
        exact ih seen
      · have hnot : dedupKey b ∉ k :: seen := by
          intro hx
          rcases List.mem_cons.mp hx with h1 | h1
          · exact hbk h1
          · exact hbs h1
        rw [if_neg hnot, if_neg hbs]
        congr 1
        rw [removeDuplicatesAux_congr (dedupKey b :: k :: seen)
          (k :: dedupKey b :: seen) rest
          (fun x => by constructor <;> intro hx <;> simp at hx ⊢ <;> tauto)]
        exact ih (dedupKey b :: seen)

theorem removeDuplicates_cons (b : CleanBusiness)
    (rest : List CleanBusiness) :
    removeDuplicates (b :: rest) =
      b :: removeDuplicates
        (rest.filter (fun x => !(dedupKey x == dedupKey b))) := by
  unfold removeDuplicates
  rw [removeDuplicatesAux_cons, if_neg (List.not_mem_nil _)]
  congr 1
  exact removeDuplicatesAux_filter (dedupKey b) [] rest

theorem jsTrim_jsToLower_comm (s : String) :
    jsTrim (jsToLower s) = jsToLower (jsTrim s) := by
  apply String.ext
  exact trimChars_map_lowerChar s.data

theorem dedupKey_claim_form (biz : CleanBusiness) :
    dedupKey biz =
      jsToLower (jsTrim biz.name) ++ "|" ++ jsToLower (jsTrim biz.address) := by
  unfold dedupKey
  rw [jsTrim_jsToLower_comm, jsTrim_jsToLower_comm]

theorem jsTrim_idem (s : String) : jsTrim (jsTrim s) = jsTrim s :=
  String.ext (trimChars_idem s.data)

theorem mem_validateAndClean (bs : List Business) (r : CleanBusiness)
    (h : r ∈ validateAndClean bs) :
    ∃ b ∈ removeIncomplete bs, r = cleanBusiness b := by
  unfold validateAndClean removeDuplicates at h
  have hsub :=
    removeDuplicatesAux_sublist [] ((removeIncomplete bs).map cleanBusiness)
  have hm := List.Sublist.mem h hsub
  obtain ⟨b, hb, hbe⟩ := List.mem_map.mp hm
  exact ⟨b, hb, hbe.symm⟩

theorem cleanBusiness_name (b : Business) :
    (cleanBusiness b).name = jsTrim b.name := rfl

theorem cleanBusiness_address (b : Business) :
    (cleanBusiness b).address = jsTrim b.address := rfl

theorem jsTrim_ne_empty_of_length (s : String)
    (h : 0 < (jsTrim s).length) : ¬(jsTrim s = "") := by
  intro he
  rw [he] at h
  simp [String.length] at h

theorem validateAndClean_complete (bs : List Business) (r : CleanBusiness)
    (h : r ∈ validateAndClean bs) :
    ¬(r.name = "") ∧ ¬(r.address = "") ∧
      ¬(jsTrim r.name = "") ∧ ¬(jsTrim r.address = "") := by
  obtain ⟨b, hb, he⟩ := mem_validateAndClean bs r h
  have hc := (List.mem_filter.mp hb).2
  unfold isComplete at hc
  simp only [Bool.and_eq_true, decide_eq_true_eq] at hc
  have hn : ¬(jsTrim b.name = "") := jsTrim_ne_empty_of_length _ hc.1.1.2
  have ha : ¬(jsTrim b.address = "") := jsTrim_ne_empty_of_length _ hc.2
  subst he
  rw [cleanBusiness_name, cleanBusiness_address, jsTrim_idem, jsTrim_idem]
  exact ⟨hn, ha, hn, ha⟩

/-- Progress event emitted by the scraper and consumed by the job
orchestrator; absent JS fields are none or the empty string. -/
structure ProgressEvent where
  status : String := ""
  message : String := ""
  current : Option Nat := none
  total : Option Nat := none
  count : Option Nat := none
deriving DecidableEq, Repr, Inhabited

/-- Detail fields read from one candidate detail page by scraper.js. -/
structure Details where
  phone : String := ""
  website : String := ""
  address : String := ""
deriving DecidableEq, Repr, Inhabited

/-- Navigation targets the scraper can drive the browser to; the search
strategy of each navigation is explicit in the constructor. -/
inductive NavTarget where
  | mapsSearch (query : String)
  | localSearch (query : String)
  | detail (url : String)
deriving DecidableEq, Repr

/-- Environment for scraper.js: the values the browser produces at each
point where the scraper reads the page.  pageData i is the list-view read
of iteration i of the scroll loop, isEnd i the end-of-results text test of
iteration i, details i the detail-page read for candidate i, where none
models a navigation or read failure. -/
structure ScrapeEnv where
  pageData : Nat → List Business
  isEnd : Nat → Bool
  details : Nat → Option Details

/-- Merge of freshly read page items into the accumulated unique list,
keyed on the url, first occurrence kept: the forEach push in
scrapeGoogleMaps. -/
def mergeByUrl (acc : List Business) : List Business → List Business
  | [] => acc
  | item :: rest =>
    if acc.any (fun r => r.url == item.url) then mergeByUrl acc rest
    else mergeByUrl (acc ++ [item]) rest

theorem mergeByUrl_length_ge (acc items : List Business) :
    acc.length ≤ (mergeByUrl acc items).length := by
  induction items generalizing acc with
  | nil => exact Nat.le_refl _
  | cons item rest ih =>
    by_cases h : acc.any (fun r => r.url == item.url)
    · rw [mergeByUrl, if_pos h]
      exact ih acc
    · rw [mergeByUrl, if_neg h]
      have := ih (acc ++ [item])
      simp at this
      omega

/-- Scrolling progress event of one collect iteration. -/
def scrollEvent (n : Nat) : ProgressEvent :=
  { status := "scrolling",
    message := "Found " ++ toString n ++ " business listings...",
    count := some n }

/-- State of the scroll-and-collect loop of scraper.js: the collected
unique candidates, the count of the previous iteration, the stagnation
counter (named scrollAttempts in the source), the number of iterations
executed, and the progress events emitted so far. -/
structure CollectState where
  fast : List Business
  prev : Nat
  attempts : Nat
  iter : Nat
  events : List ProgressEvent
deriving DecidableEq, Repr, Inhabited

/-- The scroll-and-collect while loop of scraper.js, stepped with explicit
fuel; fuel of 5 * maxLeads + 6 always suffices (collectLoop_bound), and
the run returns none only when the fuel runs out.  The while guard
compares the stagnation counter with maxScrollAttempts = 25; the body
merges the page read, emits the scrolling progress event, stops on
reaching the cap, counts and bounds stagnation at 5, and stops on the
end-of-results marker. -/
def collectLoop (env : ScrapeEnv) (maxLeads : Nat) :
    Nat → CollectState → Option CollectState
  | 0, _ => none
  | fuel + 1, st =>
    if st.attempts < 25 then
      let merged := mergeByUrl st.fast (env.pageData st.iter)
      let cur := merged.length
      let evs := st.events ++ [scrollEvent cur]
      if cur ≥ maxLeads then
        some { fast := merged, prev := st.prev, attempts := st.attempts,
               iter := st.iter + 1, events := evs }
      else if cur = st.prev then
        if st.attempts + 1 ≥ 5 then
          some { fast := merged, prev := st.prev, attempts := st.attempts + 1,
                 iter := st.iter + 1, events := evs }
        else if env.isEnd st.iter then
          some { fast := merged, prev := cur, attempts := st.attempts + 1,
                 iter := st.iter + 1, events := evs }
        else
          collectLoop env maxLeads fuel
            { fast := merged, prev := cur, attempts := st.attempts + 1,
              iter := st.iter + 1, events := evs }
      else if env.isEnd st.iter then
        some { fast := merged, prev := cur, attempts := 0,
               iter := st.iter + 1, events := evs }
      else
        collectLoop env maxLeads fuel
          { fast := merged, prev := cur, attempts := 0,
            iter := st.iter + 1, events := evs }
    else some st

/-- Enrichment of one candidate: the detail read fields override blank
list fields through the JS or-fallbacks; a failed navigation (none) keeps
the candidate unchanged. -/
def enrichOne (env : ScrapeEnv) (i : Nat) (item : Business) : Business :=
  match env.details i with
  | none => item
  | some d =>
    { item with
      phone := if d.phone == "" then item.phone else d.phone,
      website := if d.website == "" then item.website else d.website,
      address := if d.address == "" then item.address else d.address }

/-- Enrichment pass over the capped candidate list. -/
def enrichAll (env : ScrapeEnv) (links : List Business) : List Business :=
  links.enum.map (fun p => enrichOne env p.1 p.2)

/-- Event before each candidate detail navigation. -/
def extractItemEvent (i total : Nat) (name : String) : ProgressEvent :=
  { status := "extracting",
    message := "Checking " ++ toString i ++ "/" ++ toString total ++
      ": " ++ name,
    current := some i, total := some total }

/-- Events of the enrichment loop, one per candidate, emitted before the
navigation attempt. -/
def enrichEvents (links : List Business) : List ProgressEvent :=
  links.enum.map (fun p => extractItemEvent (p.1 + 1) links.length p.2.name)

/-- Detail navigations attempted by the enrichment loop. -/
def navList (links : List Business) : List NavTarget :=
  links.map (fun item => NavTarget.detail item.url)

/-- Full outcome of one scrapeGoogleMaps run: attempted navigations,
progress events in order, and either the final record list or the thrown
error message. -/
structure ScrapeOutcome where
  nav : List NavTarget
  events : List ProgressEvent
  result : Except String (List Business)
deriving Repr

/-- Error message scraper.js throws when the capped candidate list is
empty. -/
def v1NoResultsMsg : String :=
  "No businesses found in this area. Please try a different category or broader location."

/-- JS or-default over a parsed integer: NaN and 0 fall back to the
default. -/
def jsOrInt (n : Option Int) (dflt : Int) : Int :=
  match n with
  | none => dflt
  | some v => if v = 0 then dflt else v

/-- Clamp of scraper.js: parseInt with fallback 100, then clamped into
the 1 to 100 range. -/
def scraperMaxLeads (maxLeads : Option Int) : Int :=
  min (max (jsOrInt maxLeads 100) 1) 100

/-- Clamp of server.js: parseInt with fallback 20, then clamped into the
1 to 100 range. -/
def serverMaxLeads (leads : Option Int) : Int :=
  min (max (jsOrInt leads 20) 1) 100

/-- Launch progress event of scraper.js. -/
def launchEvent : ProgressEvent :=
  { status := "launching", message := "Launching global scraper engine..." }

/-- Navigation progress event of scraper.js. -/
def navEvent (category state : String) : ProgressEvent :=
  { status := "navigating",
    message := "Searching for \"" ++ category ++ "\" in \"" ++ state ++
      "\"..." }

/-- Layout-detection progress event before the scroll loop. -/
def layoutEvent : ProgressEvent :=
  { status := "scrolling",
    message := "Detecting Google Maps results layout..." }

/-- Event announcing the enrichment phase, carrying only the total. -/
def extractTotalEvent (total : Nat) : ProgressEvent :=
  { status := "extracting",
    message := "Updating details for " ++ toString total ++ " leads...",
    total := some total }

/-- Completion progress event of scraper.js. -/
def completeEvent (n : Nat) : ProgressEvent :=
  { status := "complete",
    message := "Scraping complete! " ++ toString n ++ " leads found.",
    count := some n }

/-- Search query string of scraper.js. -/
def v1Query (category state country : String) : String :=
  category ++ " in " ++ state ++ ", " ++ country

/-- Scroll loop run with the sufficient fuel. -/
def collectRun (env : ScrapeEnv) (cap : Nat) : Option CollectState :=
  collectLoop env cap (5 * cap + 6)
    { fast := [], prev := 0, attempts := 0, iter := 0, events := [] }

/-- Model of scrapeGoogleMaps from scraper.js: clamp the cap, collect
candidates by scrolling, throw the no-results error when nothing was
collected, otherwise cap the list and enrich each candidate, tolerating
per-candidate failures. -/
def scrapeGoogleMaps (env : ScrapeEnv) (category state country : String)
    (maxLeads : Option Int) : ScrapeOutcome :=
  let cap := (scraperMaxLeads maxLeads).toNat
  let query := v1Query category state country
  let initEvents := [launchEvent, navEvent category state, layoutEvent]
  match collectRun env cap with
  | none =>
    { nav := [NavTarget.mapsSearch query], events := initEvents,
      result := .error "collect loop fuel exhausted (unreachable)" }
  | some st =>
    let listingLinks := st.fast.take cap
    if listingLinks.isEmpty then
      { nav := [NavTarget.mapsSearch query],
        events := initEvents ++ st.events,
        result := .error v1NoResultsMsg }
    else
      { nav := NavTarget.mapsSearch query :: navList listingLinks,
        events := initEvents ++ st.events ++
          [extractTotalEvent listingLinks.length] ++
          enrichEvents listingLinks ++
          [completeEvent (enrichAll env listingLinks).length],
        result := .ok (enrichAll env listingLinks) }

theorem collectLoop_bound (env : ScrapeEnv) (maxLeads : Nat) :
    ∀ (fuel : Nat) (st : CollectState), st.attempts ≤ 4 →
      5 * (maxLeads - st.fast.length) + (5 - st.attempts) < fuel →
      st.prev = st.fast.length →
      ∃ out, collectLoop env maxLeads fuel st = some out ∧
        out.iter ≤ st.iter + 5 * (maxLeads - st.fast.length) +
          (5 - st.attempts) := by
  intro fuel
  induction fuel with
  | zero =>
    intro st hatt hfuel hprev
    omega
  | succ fuel ih =>
    intro st hatt hfuel hprev
    have hguard : st.attempts < 25 := by omega
    rw [collectLoop]
    rw [if_pos hguard]
    have hlen : st.fast.length ≤
        (mergeByUrl st.fast (env.pageData st.iter)).length :=
      mergeByUrl_length_ge ..
    by_cases hcap : (mergeByUrl st.fast (env.pageData st.iter)).length ≥ maxLeads
    · rw [if_pos hcap]
      refine ⟨_, rfl, ?_⟩
      simp only []
      omega
    · rw [if_neg hcap]
      by_cases hstag : (mergeByUrl st.fast (env.pageData st.iter)).length = st.prev
      · rw [if_pos hstag]
        by_cases hs5 : st.attempts + 1 ≥ 5
        · rw [if_pos hs5]
          refine ⟨_, rfl, ?_⟩
          simp only []
          omega
        · rw [if_neg hs5]
          by_cases hend : env.isEnd st.iter = true
          · rw [if_pos hend]
            refine ⟨_, rfl, ?_⟩
            simp only []
            omega
          · rw [if_neg hend]
            obtain ⟨out, hout, hbound⟩ := ih
              { fast := mergeByUrl st.fast (env.pageData st.iter),
                prev := (mergeByUrl st.fast (env.pageData st.iter)).length,
                attempts := st.attempts + 1, iter := st.iter + 1,
                events := st.events ++
                  [scrollEvent (mergeByUrl st.fast (env.pageData st.iter)).length] }
              (by show st.attempts + 1 ≤ 4; omega)
              (by
                show 5 * (maxLeads -
                    (mergeByUrl st.fast (env.pageData st.iter)).length) +
                  (5 - (st.attempts + 1)) < fuel
                omega)
              rfl
            refine ⟨out, hout, ?_⟩
            have hb2 : out.iter ≤ (st.iter + 1) +
                5 * (maxLeads -
                  (mergeByUrl st.fast (env.pageData st.iter)).length) +
                (5 - (st.attempts + 1)) := hbound
            omega
      · rw [if_neg hstag]
        by_cases hend : env.isEnd st.iter = true
        · rw [if_pos hend]
          refine ⟨_, rfl, ?_⟩
          simp only []
          omega
        · rw [if_neg hend]
          obtain ⟨out, hout, hbound⟩ := ih
            { fast := mergeByUrl st.fast (env.pageData st.iter),
              prev := (mergeByUrl st.fast (env.pageData st.iter)).length,
              attempts := 0, iter := st.iter + 1,
              events := st.events ++
                [scrollEvent (mergeByUrl st.fast (env.pageData st.iter)).length] }
            (by show (0 : Nat) ≤ 4; omega)
            (by
              show 5 * (maxLeads -
                  (mergeByUrl st.fast (env.pageData st.iter)).length) +
                (5 - 0) < fuel
              omega)
            rfl
          refine ⟨out, hout, ?_⟩
          have hb2 : out.iter ≤ (st.iter + 1) +
              5 * (maxLeads -
                (mergeByUrl st.fast (env.pageData st.iter)).length) +
              (5 - 0) := hbound
          omega

theorem collectRun_total (env : ScrapeEnv) (cap : Nat) :
    ∃ out, collectRun env cap = some out ∧ out.iter ≤ 5 * cap + 5 := by
  obtain ⟨out, hout, hbound⟩ := collectLoop_bound env cap (5 * cap + 6)
    { fast := [], prev := 0, attempts := 0, iter := 0, events := [] }
    (by show (0 : Nat) ≤ 4; omega)
    (by show 5 * (cap - ([] : List Business).length) + (5 - 0) < 5 * cap + 6; simp)
    rfl
  refine ⟨out, hout, ?_⟩
  have hb2 : out.iter ≤ 0 + 5 * (cap - ([] : List Business).length) + (5 - 0) :=
    hbound
  simp at hb2
  omega

theorem enrichAll_length (env : ScrapeEnv) (links : List Business) :
    (enrichAll env links).length = links.length := by
  unfold enrichAll
  rw [List.length_map, List.enum_length]

theorem enrichAll_getD_failed (env : ScrapeEnv) (links : List Business)
    (i : Nat) (h : env.details i = none) :
    (enrichAll env links).getD i default = links.getD i default := by
  unfold enrichAll
  rw [List.getD_eq_getElem?_getD, List.getD_eq_getElem?_getD,
    List.getElem?_map, List.getElem?_enum]
  cases hg : links[i]? with
  | none => rfl
  | some item =>
    simp only [Option.map_some', Option.getD_some]
    unfold enrichOne
    rw [h]

/-- Job record of the orchestrator in server.js, restricted to the fields
the pipeline mutates; createdAt is an opaque number. -/
structure Job where
  status : String := "starting"
  progress : Nat := 0
  message : String := "Initializing scraper..."
  resultCount : Nat := 0
  results : List CleanBusiness := []
  filePath : Option String := none
  error : Option String := none
  createdAt : Nat := 0
deriving DecidableEq, Repr, Inhabited

/-- JS truthiness of an optional numeric event field: an absent field and
zero are falsy. -/
def truthyField (n : Option Nat) : Bool :=
  match n with
  | none => false
  | some v => !(v == 0)

/-- Math.round of current over total scaled to 100, on nonnegative
values: floor of the value plus one half. -/
def roundPct (current total : Nat) : Nat :=
  (current * 100 * 2 + total) / (total * 2)

/-- Progress callback of runScrapeJob: the message is kept unless the
event carries a nonempty one, progress is recomputed only when both
current and total are truthy, resultCount is replaced only when count is
truthy; no other job field is touched. -/
def applyProgress (job : Job) (p : ProgressEvent) : Job :=
  let job1 :=
    { job with message := if p.message == "" then job.message else p.message }
  let job2 :=
    if truthyField p.total && truthyField p.current then
      { job1 with progress := roundPct (p.current.getD 0) (p.total.getD 0) }
    else job1
  if truthyField p.count then { job2 with resultCount := p.count.getD 0 }
  else job2

/-- Job as created by the scrape route, before the pipeline starts. -/
def initialJob : Job := {}

/-- Job right after runScrapeJob enters the scraping phase: status and
message change, progress stays 0. -/
def scrapingJob : Job :=
  { status := "scraping", message := "Starting Google Maps scraper..." }

/-- Progress values observable through the status endpoint while
runScrapeJob drives one job: the created job, every event fold step, then
the fixed validating, generating and complete settings on the success
path; the error path sets no further progress. -/
def progressTrace (o : ScrapeOutcome) : List Nat :=
  let folds := (o.events.scanl applyProgress scrapingJob).map Job.progress
  match o.result with
  | .ok _ => initialJob.progress :: folds ++ [90, 95, 100]
  | .error _ => initialJob.progress :: folds

/-- Bool test that a list of values is non-decreasing. -/
def nonDecreasing : List Nat → Bool
  | [] => true
  | [_] => true
  | a :: b :: rest => decide (a ≤ b) && nonDecreasing (b :: rest)

theorem scraperMaxLeads_range (n : Option Int) :
    1 ≤ scraperMaxLeads n ∧ scraperMaxLeads n ≤ 100 := by
  unfold scraperMaxLeads
  constructor
  · exact le_min (le_max_right _ _) (by norm_num)
  · exact min_le_right _ _

theorem serverMaxLeads_range (n : Option Int) :
    1 ≤ serverMaxLeads n ∧ serverMaxLeads n ≤ 100 := by
  unfold serverMaxLeads
  constructor
  · exact le_min (le_max_right _ _) (by norm_num)
  · exact min_le_right _ _

theorem scraperMaxLeads_toNat_range (n : Option Int) :
    1 ≤ (scraperMaxLeads n).toNat ∧ (scraperMaxLeads n).toNat ≤ 100 := by
  have h := scraperMaxLeads_range n
  omega

theorem scrapeV1_ok_length (env : ScrapeEnv) (category state country : String)
    (maxLeads : Option Int) (l : List Business)
    (h : (scrapeGoogleMaps env category state country maxLeads).result = .ok l) :
    l.length ≤ (scraperMaxLeads maxLeads).toNat := by
  unfold scrapeGoogleMaps at h
  simp only [] at h
  cases hc : collectRun env ((scraperMaxLeads maxLeads).toNat) with
  | none =>
    rw [hc] at h
    simp only [] at h
    simp at h
  | some st =>
    rw [hc] at h
    simp only [] at h
    by_cases he : (st.fast.take ((scraperMaxLeads maxLeads).toNat)).isEmpty
    · rw [if_pos he] at h
      simp at h
    · rw [if_neg he] at h
      simp only [] at h
      have h2 : enrichAll env
          (st.fast.take ((scraperMaxLeads maxLeads).toNat)) = l :=
        Except.ok.inj h
      rw [← h2, enrichAll_length]
      have h3 := List.length_take ((scraperMaxLeads maxLeads).toNat) st.fast
      omega

theorem scrapeV1_error_iff (env : ScrapeEnv) (category state country : String)
    (maxLeads : Option Int) :
    (scrapeGoogleMaps env category state country maxLeads).result =
        .error v1NoResultsMsg ↔
      ∃ st, collectRun env ((scraperMaxLeads maxLeads).toNat) = some st ∧
        st.fast = [] := by
  obtain ⟨st0, hst0, _⟩ :=
    collectRun_total env ((scraperMaxLeads maxLeads).toNat)
  have hcap1 := scraperMaxLeads_toNat_range maxLeads
  unfold scrapeGoogleMaps
  simp only []
  rw [hst0]
  simp only []
  by_cases he : (st0.fast.take ((scraperMaxLeads maxLeads).toNat)).isEmpty
  · rw [if_pos he]
    constructor
    · intro _
      refine ⟨st0, rfl, ?_⟩
      have ht : st0.fast.take ((scraperMaxLeads maxLeads).toNat) = [] :=
        List.isEmpty_iff.mp he
      rcases List.take_eq_nil_iff.mp ht with h0 | h0
      · omega
      · exact h0
    · intro _
      rfl
  · rw [if_neg he]
    constructor
    · intro hx
      simp at hx
    · rintro ⟨st, hst, hfast⟩
      injection hst with h1
      rw [h1, hfast] at he
      simp at he

theorem scrapeV1_error_nav (env : ScrapeEnv) (category state country : String)
    (maxLeads : Option Int)
    (h : (scrapeGoogleMaps env category state country maxLeads).result =
      .error v1NoResultsMsg) :
    (scrapeGoogleMaps env category state country maxLeads).nav =
      [NavTarget.mapsSearch (v1Query category state country)] := by
  obtain ⟨st, hst, hfast⟩ :=
    (scrapeV1_error_iff env category state country maxLeads).mp h
  unfold scrapeGoogleMaps
  simp only []
  rw [hst]
  simp only []
  have he : (st.fast.take ((scraperMaxLeads maxLeads).toNat)).isEmpty = true := by
    rw [hfast]
    simp
  rw [if_pos he]

namespace V2

/-- Detail fields read by the enrichment of the part_004 variant. -/
structure DetailsV2 where
  address : String := ""
  phone : String := ""
  website : String := ""
  rating : String := ""
  reviews : String := ""
deriving DecidableEq, Repr, Inhabited

/-- Environment for the part_004 variant: page reads for the local-search
collection iterations, the map-view fallback read, and the per-candidate
detail reads. -/
structure ScrapeEnvV2 where
  pageData : Nat → List Business
  mapData : List Business
  details : Nat → Option DetailsV2

/-- The bounded collection for-loop of the part_004 variant: the counter
runs to 15, the loop also stops on reaching the cap and when the
stagnation streak reaches 3. -/
def collectV2 (env : ScrapeEnvV2) (maxLeads : Nat) :
    Nat → Nat → List Business → Nat → Nat → List Business
  | 0, _, collected, _, _ => collected
  | remaining + 1, i, collected, prev, stagnating =>
    let merged := mergeByUrl collected (env.pageData i)
    if merged.length ≥ maxLeads then merged
    else if merged.length = prev then
      if stagnating + 1 ≥ 3 then merged
      else collectV2 env maxLeads remaining (i + 1) merged merged.length
        (stagnating + 1)
    else collectV2 env maxLeads remaining (i + 1) merged merged.length 0

/-- Clamp of the part_004 variant: parseInt with fallback 20, clamped
into the 1 to 100 range. -/
def maxLeadsV2 (maxLeads : Option Int) : Int :=
  min (max (jsOrInt maxLeads 20) 1) 100

/-- Error message of the part_004 variant when both strategies return
nothing. -/
def v2NoResultsMsg : String :=
  "Google is blocking access or returned 0 results. Try a simpler search like \x27Bakeries Kerala\x27."

/-- Search query string of the part_004 variant. -/
def v2Query (category state country : String) : String :=
  category ++ " in " ++ state ++ " " ++ country

/-- Candidates collected by the primary local-search strategy. -/
def primaryCollected (env : ScrapeEnvV2) (cap : Nat) : List Business :=
  collectV2 env cap 15 0 [] 0 0

/-- Candidate list after the one fallback: when the primary local-search
collection is empty, the map-view read is merged in with the same url
dedup; otherwise the primary collection stands. -/
def collectedAfterFallback (env : ScrapeEnvV2) (cap : Nat) : List Business :=
  if (primaryCollected env cap).isEmpty then
    mergeByUrl (primaryCollected env cap) env.mapData
  else primaryCollected env cap

/-- Search navigations performed: the map-view fallback navigation happens
exactly when the primary strategy collected nothing. -/
def v2Nav (env : ScrapeEnvV2) (cap : Nat) (query : String) : List NavTarget :=
  if (primaryCollected env cap).isEmpty then
    [NavTarget.localSearch query, NavTarget.mapsSearch query]
  else [NavTarget.localSearch query]

/-- Enrichment of one candidate in the part_004 variant: the object spread
makes every detail field override the candidate field, even when blank. -/
def enrichOneV2 (env : ScrapeEnvV2) (i : Nat) (lead : Business) : Business :=
  match env.details i with
  | none => lead
  | some d =>
    { lead with
      address := d.address
      phone := d.phone
      website := d.website
      rating := d.rating
      reviews := d.reviews }

/-- Enrichment pass of the part_004 variant. -/
def enrichV2 (env : ScrapeEnvV2) (links : List Business) : List Business :=
  links.enum.map (fun p => enrichOneV2 env p.1 p.2)

/-- Outcome of one part_004 run: the attempted search and detail
navigations and the result. -/
structure OutcomeV2 where
  nav : List NavTarget
  result : Except String (List Business)
deriving Repr

/-- Model of scrapeGoogleMaps from the part_004 variant: collect on the
local-search view, fall back once to the full map view when the primary
collection is empty, throw the no-results error only when both were
empty, otherwise cap the list and enrich. -/
def scrapeGoogleMaps (env : ScrapeEnvV2) (category state country : String)
    (maxLeads : Option Int) : OutcomeV2 :=
  let cap := (maxLeadsV2 maxLeads).toNat
  let query := v2Query category state country
  if (collectedAfterFallback env cap).isEmpty then
    { nav := v2Nav env cap query, result := .error v2NoResultsMsg }
  else
    { nav := v2Nav env cap query ++
        navList ((collectedAfterFallback env cap).take cap),
      result := .ok (enrichV2 env ((collectedAfterFallback env cap).take cap)) }

theorem collectedAfterFallback_empty_iff (env : ScrapeEnvV2) (cap : Nat) :
    (collectedAfterFallback env cap).isEmpty = true ↔
      (primaryCollected env cap = [] ∧ mergeByUrl [] env.mapData = []) := by
  unfold collectedAfterFallback
  by_cases h : (primaryCollected env cap).isEmpty
  · have he : primaryCollected env cap = [] := by
      cases hp : primaryCollected env cap with
      | nil => rfl
      | cons x xs =>
        rw [hp] at h
        simp at h
    rw [if_pos h, he]
    simp [List.isEmpty_iff]
  · rw [if_neg h]
    constructor
    · intro hx
      exact absurd hx h
    · rintro ⟨hx, _⟩
      exact absurd (by rw [hx]; rfl) h

theorem scrapeV2_error_iff (env : ScrapeEnvV2)
    (category state country : String) (maxLeads : Option Int) :
    (scrapeGoogleMaps env category state country maxLeads).result =
        .error v2NoResultsMsg ↔
      (primaryCollected env ((maxLeadsV2 maxLeads).toNat) = [] ∧
        mergeByUrl [] env.mapData = []) := by
  unfold scrapeGoogleMaps
  by_cases h : (collectedAfterFallback env ((maxLeadsV2 maxLeads).toNat)).isEmpty
  · rw [if_pos h]
    constructor
    · intro _
      exact (collectedAfterFallback_empty_iff ..).mp h
    · intro _
      rfl
  · rw [if_neg h]
    constructor
    · intro hx
      simp at hx
    · intro hx
      exact absurd ((collectedAfterFallback_empty_iff ..).mpr hx) h

theorem scrapeV2_error_nav (env : ScrapeEnvV2)
    (category state country : String) (maxLeads : Option Int)
    (h : (scrapeGoogleMaps env category state country maxLeads).result =
      .error v2NoResultsMsg) :
    (scrapeGoogleMaps env category state country maxLeads).nav =
      [NavTarget.localSearch (v2Query category state country),
       NavTarget.mapsSearch (v2Query category state country)] := by
  have hx := (scrapeV2_error_iff env category state country maxLeads).mp h
  have hempty : (collectedAfterFallback env
      ((maxLeadsV2 maxLeads).toNat)).isEmpty = true :=
    (collectedAfterFallback_empty_iff ..).mpr hx
  have hp : (primaryCollected env ((maxLeadsV2 maxLeads).toNat)).isEmpty = true := by
    rw [hx.1]
    rfl
  unfold scrapeGoogleMaps
  rw [if_pos hempty]
  unfold v2Nav
  rw [if_pos hp]

end V2

/-- Distinct candidate used by the concrete environments. -/
def stepBiz (j : Nat) : Business :=
  { name := "Biz " ++ toString j,
    url := "https://maps.example/" ++ toString j,
    address := "Addr " ++ toString j }

/-- Environment giving seven distinct candidates on the first page read. -/
def envSeven : ScrapeEnv :=
  { pageData := fun i => if i = 0 then (List.range 7).map stepBiz else [],
    isEnd := fun _ => false, details := fun _ => none }

/-- Environment that reveals one new candidate every fifth read, so the
stagnation streak keeps resetting just before its threshold. -/
def envStep : ScrapeEnv :=
  { pageData := fun i => if (i + 1) % 5 = 0 then [stepBiz ((i + 1) / 5)] else [],
    isEnd := fun _ => false, details := fun _ => none }

/-- Environment with no candidates on any read. -/
def envEmpty : ScrapeEnv :=
  { pageData := fun _ => [], isEnd := fun _ => false, details := fun _ => none }

/-- Environment with ten candidates whose detail navigations fail at
indices 3 and 7. -/
def env10 : ScrapeEnv :=
  { pageData := fun i => if i = 0 then (List.range 10).map stepBiz else [],
    isEnd := fun _ => false,
    details := fun i => if i = 3 ∨ i = 7 then none
      else some { phone := "+1 555 0100" } }

/-- The ten candidates of env10. -/
def links10 : List Business := (List.range 10).map stepBiz

/-- Part_004 environment with nothing on either strategy. -/
def v2EnvEmpty : V2.ScrapeEnvV2 :=
  { pageData := fun _ => [], mapData := [], details := fun _ => none }

theorem scrapeV1_ok_eq (env : ScrapeEnv) (category state country : String)
    (maxLeads : Option Int) (l : List Business)
    (h : (scrapeGoogleMaps env category state country maxLeads).result = .ok l) :
    ∃ st, collectRun env ((scraperMaxLeads maxLeads).toNat) = some st ∧
      l = enrichAll env (st.fast.take ((scraperMaxLeads maxLeads).toNat)) := by
  unfold scrapeGoogleMaps at h
  simp only [] at h
  cases hc : collectRun env ((scraperMaxLeads maxLeads).toNat) with
  | none =>
    rw [hc] at h
    simp only [] at h
    simp at h
  | some st =>
    rw [hc] at h
    simp only [] at h
    by_cases he : (st.fast.take ((scraperMaxLeads maxLeads).toNat)).isEmpty
    · rw [if_pos he] at h
      simp at h
    · rw [if_neg he] at h
      exact ⟨st, rfl, (Except.ok.inj h).symm⟩

/-- C1: the spec claims the progress values observable through the status
endpoint are non-decreasing, with scraping confined to 0 to 90.  The code
computes round of current over total times 100 during enrichment, so the
last enrichment event sets progress to 100 and the validating step then
writes 90: the observable sequence decreases.  This theorem evaluates the
embedded pipeline on a seven-candidate environment and exhibits the
100-to-90 drop. -/
theorem C1_progress_not_monotone :
    progressTrace (scrapeGoogleMaps envSeven "Dentists" "Texas" "USA"
        (some 7)) =
      [0, 0, 0, 0, 0, 0, 0, 14, 29, 43, 57, 71, 86, 100, 100, 90, 95, 100] ∧
    nonDecreasing (progressTrace
      (scrapeGoogleMaps envSeven "Dentists" "Texas" "USA" (some 7))) =
      false := by
  decide

/-- C2 counterexample: against an environment with zero candidates, the
engine of scraper.js throws the no-results error after navigating only
the primary maps-search strategy: no fallback strategy is invoked. -/
theorem C2_counterexample :
    (scrapeGoogleMaps envEmpty "Dentists" "Texas" "USA" (some 10)).result =
      .error v1NoResultsMsg ∧
    (scrapeGoogleMaps envEmpty "Dentists" "Texas" "USA" (some 10)).nav =
      [NavTarget.mapsSearch (v1Query "Dentists" "Texas" "USA")] :=
  ⟨rfl, rfl⟩

/-- C2 (amended): the shipped engine of scraper.js raises the no-results
error exactly when its single collection strategy yields zero candidates,
with only the primary navigation performed; the alternate part_004 engine
raises its no-results error only after both the primary local-search
strategy and the map-view fallback yield zero candidates, its error runs
having navigated both strategies. -/
theorem C2_fallback_escalation :
    (∀ (env : ScrapeEnv) (category state country : String)
        (maxLeads : Option Int),
      ((scrapeGoogleMaps env category state country maxLeads).result =
          .error v1NoResultsMsg ↔
        ∃ st, collectRun env ((scraperMaxLeads maxLeads).toNat) = some st ∧
          st.fast = []) ∧
      ((scrapeGoogleMaps env category state country maxLeads).result =
          .error v1NoResultsMsg →
        (scrapeGoogleMaps env category state country maxLeads).nav =
          [NavTarget.mapsSearch (v1Query category state country)])) ∧
    (∀ (env : V2.ScrapeEnvV2) (category state country : String)
        (maxLeads : Option Int),
      ((V2.scrapeGoogleMaps env category state country maxLeads).result =
          .error V2.v2NoResultsMsg ↔
        (V2.primaryCollected env ((V2.maxLeadsV2 maxLeads).toNat) = [] ∧
          mergeByUrl [] env.mapData = [])) ∧
      ((V2.scrapeGoogleMaps env category state country maxLeads).result =
          .error V2.v2NoResultsMsg →
        (V2.scrapeGoogleMaps env category state country maxLeads).nav =
          [NavTarget.localSearch (V2.v2Query category state country),
           NavTarget.mapsSearch (V2.v2Query category state country)])) := by
  constructor
  · intro env category state country maxLeads
    exact ⟨scrapeV1_error_iff env category state country maxLeads,
      scrapeV1_error_nav env category state country maxLeads⟩
  · intro env category state country maxLeads
    exact ⟨V2.scrapeV2_error_iff env category state country maxLeads,
      V2.scrapeV2_error_nav env category state country maxLeads⟩

/-- C2 witness: the amended theorem applied to concrete environments: the
part_004 engine with both strategies empty errors after navigating both
strategies, and scraper.js with an empty environment errors with an empty
collection. -/
theorem C2_fallback_escalation_witness :
    (V2.scrapeGoogleMaps v2EnvEmpty "Dentists" "Texas" "USA" (some 5)).result =
        .error V2.v2NoResultsMsg ∧
    (V2.scrapeGoogleMaps v2EnvEmpty "Dentists" "Texas" "USA" (some 5)).nav =
      [NavTarget.localSearch (V2.v2Query "Dentists" "Texas" "USA"),
       NavTarget.mapsSearch (V2.v2Query "Dentists" "Texas" "USA")] ∧
    (∃ st, collectRun envEmpty ((scraperMaxLeads none).toNat) = some st ∧
      st.fast = []) := by
  have h := C2_fallback_escalation
  have hv2 : (V2.scrapeGoogleMaps v2EnvEmpty "Dentists" "Texas" "USA"
      (some 5)).result = .error V2.v2NoResultsMsg :=
    ((h.2 v2EnvEmpty "Dentists" "Texas" "USA" (some 5)).1).mpr
      ⟨by decide, by decide⟩
  refine ⟨hv2, (h.2 v2EnvEmpty "Dentists" "Texas" "USA" (some 5)).2 hv2, ?_⟩
  exact ((h.1 envEmpty "Any" "Where" "Else" none).1).mp rfl

/-- C3: for every requested maxRecords value, including the non-numeric
case modelled as none and out-of-range integers, the effective caps of
both the engine and the server route lie in the 1 to 100 range, and any
record list the engine returns is no longer than the engine cap. -/
theorem C3_cap_enforcement :
    ∀ (maxLeads : Option Int),
      (1 ≤ scraperMaxLeads maxLeads ∧ scraperMaxLeads maxLeads ≤ 100) ∧
      (1 ≤ serverMaxLeads maxLeads ∧ serverMaxLeads maxLeads ≤ 100) ∧
      ∀ (env : ScrapeEnv) (category state country : String)
        (l : List Business),
        (scrapeGoogleMaps env category state country maxLeads).result =
          .ok l →
        l.length ≤ (scraperMaxLeads maxLeads).toNat := by
  intro maxLeads
  exact ⟨scraperMaxLeads_range maxLeads, serverMaxLeads_range maxLeads,
    fun env category state country l h =>
      scrapeV1_ok_length env category state country maxLeads l h⟩

/-- The five records the engine returns against envSeven with cap 5. -/
def c3Result : List Business := (List.range 5).map stepBiz

/-- C3 witness: the cap theorem applied at an out-of-range request and at
a concrete run that collects seven candidates under a cap of five. -/
theorem C3_cap_enforcement_witness :
    (1 ≤ scraperMaxLeads (some 500) ∧ scraperMaxLeads (some 500) ≤ 100) ∧
    (scrapeGoogleMaps envSeven "Dentists" "Texas" "USA" (some 5)).result =
      .ok c3Result ∧
    c3Result.length ≤ (scraperMaxLeads (some 5)).toNat := by
  refine ⟨(C3_cap_enforcement (some 500)).1, rfl, ?_⟩
  exact (C3_cap_enforcement (some 5)).2.2 envSeven "Dentists" "Texas" "USA"
    c3Result rfl

/-- C4: every record surviving validateAndClean has a nonempty name and a
nonempty address, both also nonempty after trimming: the completeness
filter runs before normalization, normalization itself trims the fields,
and deduplication only removes records. -/
theorem C4_completeness_filter :
    ∀ (bs : List Business) (r : CleanBusiness), r ∈ validateAndClean bs →
      ¬(r.name = "") ∧ ¬(r.address = "") ∧
        ¬(jsTrim r.name = "") ∧ ¬(jsTrim r.address = "") :=
  fun bs r h => validateAndClean_complete bs r h

/-- Raw input with one complete and one incomplete record. -/
def c4Raw : List Business :=
  [{ name := " Alfa Cafe ", address := "1 Main St" },
   { name := "", address := "2 Side St" }]

/-- The cleaned record surviving validateAndClean on c4Raw. -/
def c4Rec : CleanBusiness :=
  cleanBusiness { name := " Alfa Cafe ", address := "1 Main St" }

set_option maxRecDepth 16384 in
/-- C4 witness: the completeness theorem applied to the surviving record
of a concrete run. -/
theorem C4_completeness_filter_witness :
    c4Rec ∈ validateAndClean c4Raw ∧
    ¬(c4Rec.name = "") ∧ ¬(jsTrim c4Rec.name = "") := by
  have hm : c4Rec ∈ validateAndClean c4Raw := by decide
  have h := C4_completeness_filter c4Raw c4Rec hm
  exact ⟨hm, h.1, h.2.2.1⟩

/-- C5: removeDuplicates is idempotent, keeps at most one record per
dedup key, preserves input order as a sublist, always keeps the head and
removes exactly the later records sharing its key (first occurrence
wins); the key is the lowercased trimmed name joined with the lowercased
trimmed address; and in validateAndClean the deduplication runs last,
after the completeness filter and the normalization map. -/
theorem C5_dedup_idem_first_wins :
    ∀ (bs : List Business) (xs rest : List CleanBusiness)
      (b : CleanBusiness),
      removeDuplicates (removeDuplicates xs) = removeDuplicates xs ∧
      ((removeDuplicates xs).map dedupKey).Nodup ∧
      (removeDuplicates xs).Sublist xs ∧
      removeDuplicates (b :: rest) =
        b :: removeDuplicates
          (rest.filter (fun x => !(dedupKey x == dedupKey b))) ∧
      dedupKey b =
        jsToLower (jsTrim b.name) ++ "|" ++ jsToLower (jsTrim b.address) ∧
      validateAndClean bs =
        removeDuplicates ((removeIncomplete bs).map cleanBusiness) := by
  intro bs xs rest b
  exact ⟨removeDuplicates_idem xs,
    (removeDuplicatesAux_keys [] xs).1,
    removeDuplicatesAux_sublist [] xs,
    removeDuplicates_cons b rest,
    dedupKey_claim_form b,
    rfl⟩

/-- C6 counterexample: normalizeUrl is not idempotent.  On the input of a
single slash the trim leaves the slash, the scheme is prepended, and the
trailing-slash strip then truncates the scheme itself: a second
normalization prepends another scheme. -/
theorem C6_counterexample :
    normalizeUrl "/" = "https:" ∧
    normalizeUrl (normalizeUrl "/") = "https://https:" ∧
    ¬(normalizeUrl (normalizeUrl "/") = normalizeUrl "/") := by
  refine ⟨by decide, by decide, by decide⟩

/-- C6 (amended): normalizePhone and normalizeEmail are idempotent for
every string s; normalizeUrl is idempotent for every input t whose
normalization result is empty or is a trimmed string still carrying its
http or https scheme — degenerate inputs such as a bare slash, where the
trailing-slash strip truncates the scheme, or a URL whose stripped form
ends in whitespace, violate idempotence. -/
theorem C6_normalizers_idempotent (s t : String)
    (h : normalizeUrl t = "" ∨ (jsTrim (normalizeUrl t) = normalizeUrl t ∧
      (jsStartsWith (normalizeUrl t) "http://" ||
       jsStartsWith (normalizeUrl t) "https://") = true)) :
    normalizePhone (normalizePhone s) = normalizePhone s ∧
    normalizeEmail (normalizeEmail s) = normalizeEmail s ∧
    normalizeUrl (normalizeUrl t) = normalizeUrl t :=
  ⟨normalizePhone_idem s, normalizeEmail_idem s,
    normalizeUrl_idem_of_kept_scheme t h⟩

/-- C6 witness: the amended theorem applied at the bare-slash input for
the phone and email normalizers — an input on which normalizeUrl itself
is not idempotent — and at a concrete URL whose normalization keeps its
scheme. -/
theorem C6_normalizers_idempotent_witness :
    (normalizeUrl " Example.com/a// " = "" ∨
      (jsTrim (normalizeUrl " Example.com/a// ") =
          normalizeUrl " Example.com/a// " ∧
        (jsStartsWith (normalizeUrl " Example.com/a// ") "http://" ||
         jsStartsWith (normalizeUrl " Example.com/a// ") "https://") =
          true)) ∧
    normalizePhone (normalizePhone "/") = normalizePhone "/" ∧
    normalizeEmail (normalizeEmail "/") = normalizeEmail "/" ∧
    normalizeUrl (normalizeUrl " Example.com/a// ") =
      normalizeUrl " Example.com/a// " :=
  ⟨Or.inr ⟨by decide, by decide⟩,
    C6_normalizers_idempotent "/" " Example.com/a// "
      (Or.inr ⟨by decide, by decide⟩)⟩

/-- Record on which the claimed rule table and the code disagree: the
rating parses to zero, which is falsy in JS, so the code skips both
rating branches and, with 25 reviews, lands on the neutral branch, while
the claimed table picks the improvement branch from zero below four. -/
def c7Biz : CleanBusiness :=
  { name := "Alfa Cafe", category := "Cafes", address := "1 Main St",
    rating := "0", reviews := "25" }

set_option maxRecDepth 16384 in
/-- C7 counterexample: on a record with rating zero and 25 reviews the
ice breaker the code generates differs from the one the claimed rule
table (without truthiness guards) prescribes. -/
theorem C7_counterexample :
    ¬(generateIceBreaker c7Biz = iceBreakerClaimed c7Biz) := by
  decide

/-- C7 (amended): the ice breaker deterministically equals the
composition of the intro, one middle branch selected by the rule table
with the truthiness guards the code applies (praise when the rating is
truthy, at least 4.5 and reviews exceed 20; otherwise improvement when
the rating is truthy and below 4.0; otherwise review growth when the
review count is truthy and below 10; otherwise neutral), the website
clause chosen by website nonemptiness, and the fixed closing referencing
the record category. -/
theorem C7_ice_breaker_rule_table :
    ∀ (biz : CleanBusiness), generateIceBreaker biz = iceBreakerAmended biz :=
  fun _ => rfl

/-- C8: a failed detail navigation never drops a candidate: the enriched
list has exactly the length of the candidate list, a candidate whose
detail read fails is returned unchanged with its list-view fields, and
any record list the engine returns has exactly the length of the capped
candidate list. -/
theorem C8_enrichment_non_fatal :
    ∀ (env : ScrapeEnv) (links : List Business),
      ((enrichAll env links).length = links.length ∧
        ∀ i, env.details i = none →
          (enrichAll env links).getD i default = links.getD i default) ∧
      ∀ (category state country : String) (maxLeads : Option Int)
        (l : List Business),
        (scrapeGoogleMaps env category state country maxLeads).result =
          .ok l →
        ∃ st, collectRun env ((scraperMaxLeads maxLeads).toNat) = some st ∧
          l.length =
            (st.fast.take ((scraperMaxLeads maxLeads).toNat)).length := by
  intro env links
  refine ⟨⟨enrichAll_length env links,
    fun i hi => enrichAll_getD_failed env links i hi⟩, ?_⟩
  intro category state country maxLeads l h
  obtain ⟨st, hst, hl⟩ := scrapeV1_ok_eq env category state country maxLeads l h
  exact ⟨st, hst, by rw [hl, enrichAll_length]⟩

/-- C8 witness: ten candidates with the detail navigations of indices 3
and 7 failing: the enriched list still has ten entries, entry 3 carries
exactly its list-view data, and the engine run returns a list as long as
the capped candidate list. -/
theorem C8_enrichment_non_fatal_witness :
    (enrichAll env10 links10).length = links10.length ∧
    env10.details 3 = none ∧
    (enrichAll env10 links10).getD 3 default = links10.getD 3 default ∧
    ∃ st, collectRun env10 ((scraperMaxLeads (some 10)).toNat) = some st ∧
      (enrichAll env10 links10).length =
        (st.fast.take ((scraperMaxLeads (some 10)).toNat)).length := by
  have h := C8_enrichment_non_fatal env10 links10
  exact ⟨h.1.1, rfl, h.1.2 3 rfl,
    h.2 "Dentists" "Texas" "USA" (some 10) (enrichAll env10 links10) rfl⟩

/-- C9 counterexample: an environment that reveals one new candidate
every fifth read resets the stagnation streak indefinitely: with a cap of
seven the loop executes 35 iterations, exceeding the claimed
max-iterations bound of 25 (the constant 25 guards only the stagnation
counter, which growth keeps resetting). -/
theorem C9_counterexample :
    (collectRun envStep 7).map (fun st => st.iter) = some 35 ∧ 25 < 35 := by
  refine ⟨by decide, by decide⟩

/-- C9 (amended): the scroll-and-collect loop always terminates, but its
two bounds are the stagnation streak of 5 and the cap: the total number
of iterations is bounded by 5 times the cap plus 5, not by the
max-iterations constant 25, which only guards the stagnation counter. -/
theorem C9_loop_terminates_bounded :
    ∀ (env : ScrapeEnv) (cap : Nat),
      ∃ st, collectRun env cap = some st ∧ st.iter ≤ 5 * cap + 5 :=
  collectRun_total

/-- C10: the progress callback of runScrapeJob only ever writes message,
progress and resultCount: status, results, filePath, error and createdAt
are untouched by any event; progress changes only when both total and
current are present and nonzero, resultCount only when count is present
and nonzero, message only when the event message is nonempty; in
particular an event with count zero never resets resultCount and an event
without current leaves progress unchanged. -/
theorem C10_progress_channel_frame :
    ∀ (job : Job) (p : ProgressEvent),
      (applyProgress job p).status = job.status ∧
      (applyProgress job p).results = job.results ∧
      (applyProgress job p).filePath = job.filePath ∧
      (applyProgress job p).error = job.error ∧
      (applyProgress job p).createdAt = job.createdAt ∧
      (applyProgress job p).message =
        (if p.message == "" then job.message else p.message) ∧
      (applyProgress job p).progress =
        (if (truthyField p.total && truthyField p.current) = true
         then roundPct (p.current.getD 0) (p.total.getD 0)
         else job.progress) ∧
      (applyProgress job p).resultCount =
        (if truthyField p.count = true then p.count.getD 0
         else job.resultCount) ∧
      (applyProgress job { p with count := some 0 }).resultCount =
        job.resultCount ∧
      (applyProgress job { p with current := none }).progress =
        job.progress := by
  intro job p
  refine ⟨?_, ?_, ?_, ?_, ?_, ?_, ?_, ?_, ?_, ?_⟩ <;>
    · unfold applyProgress
      split_ifs <;> first | rfl | simp_all [truthyField]

end GMaps
